import Mathlib

/-!
Verification development for the zonamicroondas news backend.

The repository's slug derivation, slug uniqueness resolution, and news
aggregate synchronization are shallowly embedded here.  Strings are
modelled as their character lists; the database visible to the handlers
is modelled as explicit lists of rows, and each HTTP handler becomes a
pure function from the incoming database and request body to the
resulting database and response.
-/

/-! ## Character classes used by the slug pipeline

These mirror the JavaScript regular-expression classes used in
`generateSlug` (`server.js` and `migrate-slugs.js`): `\s` (whitespace),
`\w` (word characters), combining diacritical marks `[̀-ͯ]`,
and the hyphen.
-/

/-- Whitespace as matched by the JavaScript `\s` class and `trim()`
(restricted to the ASCII whitespace characters). -/
def isSpaceChar (c : Char) : Bool :=
  decide (c = ' ' ∨ c = '\t' ∨ c = '\n' ∨ c = '\r' ∨ c.toNat = 11 ∨ c.toNat = 12)

/-- Word characters as matched by the JavaScript `\w` class:
`[A-Za-z0-9_]`. -/
def isWordChar (c : Char) : Bool :=
  decide ((97 ≤ c.toNat ∧ c.toNat ≤ 122) ∨ (65 ≤ c.toNat ∧ c.toNat ≤ 90) ∨
    (48 ≤ c.toNat ∧ c.toNat ≤ 57) ∨ c = '_')

/-- The hyphen test used by the `-`-collapsing and `-`-stripping steps. -/
def isHyphen (c : Char) : Bool :=
  decide (c = '-')

/-- Combining diacritical marks, the JavaScript class `[̀-ͯ]`
removed right after NFD normalization. -/
def isCombiningMark (c : Char) : Bool :=
  decide (768 ≤ c.toNat ∧ c.toNat ≤ 879)

/-- The character set the specification allows in a slug: lowercase
letters, digits, underscore and hyphen. -/
def isSlugOutChar (c : Char) : Bool :=
  decide ((97 ≤ c.toNat ∧ c.toNat ≤ 122) ∨ (48 ≤ c.toNat ∧ c.toNat ≤ 57) ∨
    c = '_' ∨ c = '-')

/-- ASCII case mapping of JavaScript `toLowerCase()`: uppercase `A-Z`
shift down by 32, every other character is returned unchanged. -/
def jsToLower (c : Char) : Char :=
  if 65 ≤ c.toNat ∧ c.toNat ≤ 90 then Char.ofNat (c.toNat + 32) else c

/-- Single-character NFD decomposition used by `normalize('NFD')`,
tabulated for the accented Latin letters occurring in this Spanish news
site's data (acute accents, diaeresis and tilde); every other character
decomposes to itself.  `Char.ofNat 769/776/771` are the combining acute,
diaeresis and tilde marks. -/
def nfdChar (c : Char) : List Char :=
  if c = 'á' then ['a', Char.ofNat 769]
  else if c = 'é' then ['e', Char.ofNat 769]
  else if c = 'í' then ['i', Char.ofNat 769]
  else if c = 'ó' then ['o', Char.ofNat 769]
  else if c = 'ú' then ['u', Char.ofNat 769]
  else if c = 'ü' then ['u', Char.ofNat 776]
  else if c = 'ñ' then ['n', Char.ofNat 771]
  else if c = 'Á' then ['A', Char.ofNat 769]
  else if c = 'É' then ['E', Char.ofNat 769]
  else if c = 'Í' then ['I', Char.ofNat 769]
  else if c = 'Ó' then ['O', Char.ofNat 769]
  else if c = 'Ú' then ['U', Char.ofNat 769]
  else if c = 'Ü' then ['U', Char.ofNat 776]
  else if c = 'Ñ' then ['N', Char.ofNat 771]
  else [c]

/-- `normalize('NFD')` over a character list. -/
def nfd (l : List Char) : List Char :=
  l.flatMap nfdChar

/-- The replacement `.replace(/\s+/g, '-')`: every maximal run of
whitespace becomes a single hyphen. -/
def collapseSpaces : List Char → List Char
  | [] => []
  | [c] => if isSpaceChar c then ['-'] else [c]
  | c :: d :: rest =>
    if isSpaceChar c then
      if isSpaceChar d then collapseSpaces (d :: rest)
      else '-' :: collapseSpaces (d :: rest)
    else c :: collapseSpaces (d :: rest)

/-- The replacement `.replace(/\-\-+/g, '-')`: every maximal run of
hyphens becomes a single hyphen. -/
def collapseHyphens : List Char → List Char
  | [] => []
  | [c] => [c]
  | c :: d :: rest =>
    if isHyphen c then
      if isHyphen d then collapseHyphens (d :: rest)
      else '-' :: collapseHyphens (d :: rest)
    else c :: collapseHyphens (d :: rest)

/-- JavaScript `trim()`: drop leading and trailing whitespace. -/
def trimChars (l : List Char) : List Char :=
  ((l.dropWhile isSpaceChar).reverse.dropWhile isSpaceChar).reverse

/-- The two final replacements of the slug chain, `replace(^-+, '')` and
`replace(-+$, '')`: drop leading and trailing hyphens. -/
def stripEdgeHyphens (l : List Char) : List Char :=
  ((l.dropWhile isHyphen).reverse.dropWhile isHyphen).reverse

/-- The slug pipeline of `migrate-slugs.js`'s `generateSlug` (the variant
without NFD normalization), on character lists:
`toLowerCase. trim. replace(\s+,-). replace([^\w\-]+,''). replace(--+,-).
replace(^-+,''). replace(-+$,'')`. -/
def slugCharsPlain (l : List Char) : List Char :=
  stripEdgeHyphens (collapseHyphens
    ((collapseSpaces (trimChars (l.map jsToLower))).filter
      (fun c => isWordChar c || isHyphen c)))

/-- The slug pipeline of `server.js`'s `generateSlug`: NFD-normalize,
strip combining marks, then the pipeline shared with the migrate
variant. -/
def slugChars (l : List Char) : List Char :=
  slugCharsPlain ((nfd l).filter (fun c => !isCombiningMark c))

/-- `generateSlug` of `server.js` lines 74-86 (also `server.js` lines
1176-1188 of the second source variant). -/
def generateSlug (s : String) : String :=
  String.mk (slugChars s.data)

/-- `generateSlug` of `migrate-slugs.js` lines 11-21: identical except
that it performs no `normalize('NFD')` and no combining-mark removal. -/
def generateSlugMigrate (s : String) : String :=
  String.mk (slugCharsPlain s.data)

/-- No two adjacent characters of the list are both hyphens, i.e. the
list contains no run of two or more consecutive hyphens. -/
def hyphenRunFree : List Char → Bool
  | [] => true
  | [_] => true
  | c :: d :: rest => !(isHyphen c && isHyphen d) && hyphenRunFree (d :: rest)

/-! ## Generic list helpers for the pipeline proofs -/

theorem head?_append_left {α : Type} {l r : List α} (h : l ≠ []) :
    (l ++ r).head? = l.head? := by
  cases l with
  | nil => exact absurd rfl h
  | cons a t => rfl

theorem mem_of_mem_dropWhile {α : Type} {p : α → Bool} {l : List α} {c : α}
    (h : c ∈ l.dropWhile p) : c ∈ l := by
  have hdec := List.takeWhile_append_dropWhile p l
  rw [← hdec]
  exact List.mem_append_right _ h

theorem head?_dropWhile_false {α : Type} {p : α → Bool} {l : List α} {c : α}
    (h : (l.dropWhile p).head? = some c) : p c = false := by
  induction l with
  | nil => simp [List.dropWhile] at h
  | cons a t ih =>
    by_cases hp : p a = true
    · rw [List.dropWhile_cons_of_pos hp] at h
      exact ih h
    · rw [List.dropWhile_cons_of_neg hp] at h
      simp at h
      rw [← h]
      simp only [Bool.not_eq_true] at hp
      exact hp

theorem dropWhile_eq_self_of_head {α : Type} {p : α → Bool} {l : List α}
    (h : ∀ c, l.head? = some c → p c = false) : l.dropWhile p = l := by
  cases l with
  | nil => rfl
  | cons a t =>
    have := h a rfl
    rw [List.dropWhile_cons_of_neg (by rw [this]; exact Bool.false_ne_true)]

/-- Decomposition of a list into its hyphen-stripped tail-part and the
stripped suffix: `stripEdgeHyphens`' result together with the removed
pieces reassembles `l.dropWhile isHyphen`. -/
theorem stripEdgeHyphens_append (l : List Char) :
    ∃ t, stripEdgeHyphens l ++ t = l.dropWhile isHyphen := by
  refine ⟨((l.dropWhile isHyphen).reverse.takeWhile isHyphen).reverse, ?_⟩
  rw [stripEdgeHyphens, ← List.reverse_append,
    List.takeWhile_append_dropWhile, List.reverse_reverse]

theorem stripEdgeHyphens_head {l : List Char} {c : Char}
    (h : (stripEdgeHyphens l).head? = some c) : isHyphen c = false := by
  obtain ⟨t, ht⟩ := stripEdgeHyphens_append l
  have hne : stripEdgeHyphens l ≠ [] := by
    intro hnil
    rw [hnil] at h
    exact Option.noConfusion h
  have : (l.dropWhile isHyphen).head? = some c := by
    rw [← ht, head?_append_left hne, h]
  exact head?_dropWhile_false this

theorem stripEdgeHyphens_getLast {l : List Char} {c : Char}
    (h : (stripEdgeHyphens l).getLast? = some c) : isHyphen c = false := by
  have heq := List.head?_reverse (stripEdgeHyphens l)
  rw [h] at heq
  rw [stripEdgeHyphens, List.reverse_reverse] at heq
  exact head?_dropWhile_false heq

theorem mem_stripEdgeHyphens {l : List Char} {c : Char}
    (h : c ∈ stripEdgeHyphens l) : c ∈ l := by
  rw [stripEdgeHyphens, List.mem_reverse] at h
  have h2 := mem_of_mem_dropWhile h
  rw [List.mem_reverse] at h2
  exact mem_of_mem_dropWhile h2

/-! ## Facts about the hyphen-run predicate -/

theorem hyphenRunFree_cons_iff (a : Char) (l : List Char) :
    hyphenRunFree (a :: l) = true ↔
      hyphenRunFree l = true ∧
        ∀ b, l.head? = some b → (isHyphen a && isHyphen b) = false := by
  cases l with
  | nil => simp [hyphenRunFree]
  | cons b t =>
    show (!(isHyphen a && isHyphen b) && hyphenRunFree (b :: t)) = true ↔ _
    constructor
    · intro h
      have h1 := (Bool.and_eq_true _ _).mp h
      refine ⟨h1.2, ?_⟩
      intro y hy
      have hyb : b = y := by simpa using hy
      subst hyb
      have h2 := h1.1
      cases hab : (isHyphen a && isHyphen b) with
      | false => rfl
      | true => rw [hab] at h2; simp at h2
    · intro h
      refine (Bool.and_eq_true _ _).mpr ⟨?_, h.1⟩
      rw [h.2 b rfl]
      rfl

theorem hyphenRunFree_append {a b : List Char}
    (h : hyphenRunFree (a ++ b) = true) :
    hyphenRunFree a = true ∧ hyphenRunFree b = true := by
  induction a with
  | nil => exact ⟨rfl, h⟩
  | cons x xs ih =>
    rw [List.cons_append, hyphenRunFree_cons_iff] at h
    obtain ⟨hrest, hcond⟩ := h
    obtain ⟨hxs, hb⟩ := ih hrest
    refine ⟨?_, hb⟩
    rw [hyphenRunFree_cons_iff]
    refine ⟨hxs, ?_⟩
    intro y hy
    apply hcond
    cases xs with
    | nil => exact absurd hy Option.noConfusion
    | cons z t =>
      have hz : z = y := by simpa using hy
      subst hz
      rfl

theorem collapseHyphens_head_of_ne {d : Char} {r : List Char}
    (hd : isHyphen d = false) : (collapseHyphens (d :: r)).head? = some d := by
  cases r with
  | nil => rfl
  | cons e t =>
    rw [collapseHyphens]
    rw [if_neg (by rw [hd]; exact Bool.false_ne_true)]
    rfl

theorem hyphenRunFree_collapseHyphens (l : List Char) :
    hyphenRunFree (collapseHyphens l) = true := by
  induction l with
  | nil => rfl
  | cons c rest ih =>
    cases rest with
    | nil => rfl
    | cons d t =>
      rw [collapseHyphens]
      by_cases hc : isHyphen c = true
      · rw [if_pos hc]
        by_cases hd : isHyphen d = true
        · rw [if_pos hd]
          exact ih
        · simp only [Bool.not_eq_true] at hd
          rw [if_neg (by rw [hd]; exact Bool.false_ne_true)]
          rw [hyphenRunFree_cons_iff]
          refine ⟨ih, ?_⟩
          intro y hy
          rw [collapseHyphens_head_of_ne hd] at hy
          have hyd : d = y := by simpa using hy
          subst hyd
          simp [hd]
      · simp only [Bool.not_eq_true] at hc
        rw [if_neg (by rw [hc]; exact Bool.false_ne_true)]
        rw [hyphenRunFree_cons_iff]
        refine ⟨ih, ?_⟩
        intro y hy
        simp [hc]

theorem hyphenRunFree_stripEdgeHyphens {l : List Char}
    (h : hyphenRunFree l = true) :
    hyphenRunFree (stripEdgeHyphens l) = true := by
  obtain ⟨t, ht⟩ := stripEdgeHyphens_append l
  have hdw : hyphenRunFree (l.dropWhile isHyphen) = true := by
    have hdec := List.takeWhile_append_dropWhile isHyphen l
    rw [← hdec] at h
    exact (hyphenRunFree_append h).2
  rw [← ht] at hdw
  exact (hyphenRunFree_append hdw).1

/-! ## Membership through the collapsing steps -/

theorem mem_collapseSpaces {l : List Char} {c : Char}
    (h : c ∈ collapseSpaces l) : c = '-' ∨ c ∈ l := by
  induction l with
  | nil => simp [collapseSpaces] at h
  | cons a rest ih =>
    cases rest with
    | nil =>
      by_cases ha : isSpaceChar a = true
      · simp [collapseSpaces, ha] at h
        exact Or.inl h
      · simp [collapseSpaces, ha] at h
        exact Or.inr (by simp [h])
    | cons d t =>
      rw [collapseSpaces] at h
      by_cases ha : isSpaceChar a = true
      · rw [if_pos ha] at h
        by_cases hd : isSpaceChar d = true
        · rw [if_pos hd] at h
          rcases ih h with h1 | h1
          · exact Or.inl h1
          · exact Or.inr (List.mem_cons_of_mem _ h1)
        · rw [if_neg hd] at h
          rcases List.mem_cons.mp h with h1 | h1
          · exact Or.inl h1
          · rcases ih h1 with h2 | h2
            · exact Or.inl h2
            · exact Or.inr (List.mem_cons_of_mem _ h2)
      · rw [if_neg ha] at h
        rcases List.mem_cons.mp h with h1 | h1
        · exact Or.inr (by simp [h1])
        · rcases ih h1 with h2 | h2
          · exact Or.inl h2
          · exact Or.inr (List.mem_cons_of_mem _ h2)

theorem mem_collapseHyphens {l : List Char} {c : Char}
    (h : c ∈ collapseHyphens l) : c = '-' ∨ c ∈ l := by
  induction l with
  | nil => simp [collapseHyphens] at h
  | cons a rest ih =>
    cases rest with
    | nil =>
      simp [collapseHyphens] at h
      exact Or.inr (by simp [h])
    | cons d t =>
      rw [collapseHyphens] at h
      by_cases ha : isHyphen a = true
      · rw [if_pos ha] at h
        by_cases hd : isHyphen d = true
        · rw [if_pos hd] at h
          rcases ih h with h1 | h1
          · exact Or.inl h1
          · exact Or.inr (List.mem_cons_of_mem _ h1)
        · rw [if_neg hd] at h
          rcases List.mem_cons.mp h with h1 | h1
          · exact Or.inl h1
          · rcases ih h1 with h2 | h2
            · exact Or.inl h2
            · exact Or.inr (List.mem_cons_of_mem _ h2)
      · rw [if_neg ha] at h
        rcases List.mem_cons.mp h with h1 | h1
        · exact Or.inr (by simp [h1])
        · rcases ih h1 with h2 | h2
          · exact Or.inl h2
          · exact Or.inr (List.mem_cons_of_mem _ h2)

/-! ## Character arithmetic for the pipeline -/

theorem charOfNat_toNat {n : Nat} (h : n < 55296) : (Char.ofNat n).toNat = n := by
  have hv : n.isValidChar := Or.inl h
  simp [Char.ofNat, hv, Char.ofNatAux, Char.toNat, UInt32.toNat, BitVec.toNat_ofNatLt]

theorem jsToLower_notUpper (c : Char) :
    ¬(65 ≤ (jsToLower c).toNat ∧ (jsToLower c).toNat ≤ 90) := by
  rw [jsToLower]
  by_cases h : 65 ≤ c.toNat ∧ c.toNat ≤ 90
  · rw [if_pos h]
    have hlt : c.toNat + 32 < 55296 := by omega
    rw [charOfNat_toNat hlt]
    omega
  · rw [if_neg h]
    exact h

theorem slug_toNat_facts {c : Char} (h : isSlugOutChar c = true) :
    (97 ≤ c.toNat ∧ c.toNat ≤ 122) ∨ (48 ≤ c.toNat ∧ c.toNat ≤ 57) ∨
      c.toNat = 95 ∨ c.toNat = 45 := by
  simp only [isSlugOutChar, decide_eq_true_eq] at h
  rcases h with h1 | h1 | rfl | rfl
  · exact Or.inl h1
  · exact Or.inr (Or.inl h1)
  · exact Or.inr (Or.inr (Or.inl (by decide)))
  · exact Or.inr (Or.inr (Or.inr (by decide)))

theorem slugChar_toNat_le {c : Char} (h : isSlugOutChar c = true) : c.toNat ≤ 122 := by
  have := slug_toNat_facts h
  omega

theorem slugChar_not_space {c : Char} (h : isSlugOutChar c = true) :
    isSpaceChar c = false := by
  have hf := slug_toNat_facts h
  rw [isSpaceChar]
  apply decide_eq_false
  intro hsp
  rcases hsp with rfl | rfl | rfl | rfl | h1 | h1
  · revert hf; decide
  · revert hf; decide
  · revert hf; decide
  · revert hf; decide
  · omega
  · omega

theorem slugChar_word_or_hyphen {c : Char} (h : isSlugOutChar c = true) :
    (isWordChar c || isHyphen c) = true := by
  simp only [isSlugOutChar, decide_eq_true_eq] at h
  rcases h with h1 | h1 | rfl | rfl
  · have : isWordChar c = true := by
      simp only [isWordChar, decide_eq_true_eq]
      exact Or.inl h1
    rw [this]
    rfl
  · have : isWordChar c = true := by
      simp only [isWordChar, decide_eq_true_eq]
      exact Or.inr (Or.inr (Or.inl h1))
    rw [this]
    rfl
  · decide
  · decide

theorem word_notUpper_slug {c : Char} (hw : isWordChar c = true)
    (hnu : ¬(65 ≤ c.toNat ∧ c.toNat ≤ 90)) : isSlugOutChar c = true := by
  simp only [isWordChar, decide_eq_true_eq] at hw
  simp only [isSlugOutChar, decide_eq_true_eq]
  rcases hw with h | h | h | rfl
  · exact Or.inl h
  · exact absurd h hnu
  · exact Or.inr (Or.inl h)
  · exact Or.inr (Or.inr (Or.inl rfl))

theorem jsToLower_eq_self {c : Char} (h : isSlugOutChar c = true) : jsToLower c = c := by
  rw [jsToLower]
  apply if_neg
  intro hu
  have hf := slug_toNat_facts h
  omega

theorem mem_trimChars {l : List Char} {c : Char} (h : c ∈ trimChars l) : c ∈ l := by
  rw [trimChars, List.mem_reverse] at h
  have h2 := mem_of_mem_dropWhile h
  rw [List.mem_reverse] at h2
  exact mem_of_mem_dropWhile h2

theorem notUpper_of_mem_lower {l : List Char} {c : Char} (h : c ∈ l.map jsToLower) :
    ¬(65 ≤ c.toNat ∧ c.toNat ≤ 90) := by
  rw [List.mem_map] at h
  obtain ⟨d, _, rfl⟩ := h
  exact jsToLower_notUpper d

/-! ## The invariants of the slug pipeline output (claim C5's properties) -/

theorem slugCharsPlain_mem {l : List Char} {c : Char}
    (h : c ∈ slugCharsPlain l) : isSlugOutChar c = true := by
  rw [slugCharsPlain] at h
  have h1 := mem_stripEdgeHyphens h
  rcases mem_collapseHyphens h1 with rfl | h2
  · decide
  · rw [List.mem_filter] at h2
    obtain ⟨h3, h4⟩ := h2
    by_cases hh : isHyphen c = true
    · rw [of_decide_eq_true hh]
      decide
    · have hw : isWordChar c = true := by
        rcases (Bool.or_eq_true _ _).mp h4 with hw | hy
        · exact hw
        · exact absurd hy hh
      rcases mem_collapseSpaces h3 with rfl | h5
      · decide
      · exact word_notUpper_slug hw (notUpper_of_mem_lower (mem_trimChars h5))

theorem slugCharsPlain_head {l : List Char} {c : Char}
    (h : (slugCharsPlain l).head? = some c) : isHyphen c = false := by
  rw [slugCharsPlain] at h
  exact stripEdgeHyphens_head h

theorem slugCharsPlain_getLast {l : List Char} {c : Char}
    (h : (slugCharsPlain l).getLast? = some c) : isHyphen c = false := by
  rw [slugCharsPlain] at h
  exact stripEdgeHyphens_getLast h

theorem slugCharsPlain_hyphenRunFree (l : List Char) :
    hyphenRunFree (slugCharsPlain l) = true := by
  rw [slugCharsPlain]
  exact hyphenRunFree_stripEdgeHyphens (hyphenRunFree_collapseHyphens _)

theorem slugChars_mem {l : List Char} {c : Char}
    (h : c ∈ slugChars l) : isSlugOutChar c = true :=
  slugCharsPlain_mem h

theorem slugChars_head {l : List Char} {c : Char}
    (h : (slugChars l).head? = some c) : isHyphen c = false :=
  slugCharsPlain_head h

theorem slugChars_getLast {l : List Char} {c : Char}
    (h : (slugChars l).getLast? = some c) : isHyphen c = false :=
  slugCharsPlain_getLast h

theorem slugChars_hyphenRunFree (l : List Char) :
    hyphenRunFree (slugChars l) = true :=
  slugCharsPlain_hyphenRunFree _

/-! ## The pipeline is the identity on already-valid slugs -/

theorem dropWhile_eq_self_of_all {α : Type} {p : α → Bool} {l : List α}
    (h : ∀ c ∈ l, p c = false) : l.dropWhile p = l := by
  cases l with
  | nil => rfl
  | cons a t =>
    rw [List.dropWhile_cons_of_neg
      (by rw [h a (List.mem_cons_self a t)]; exact Bool.false_ne_true)]

theorem map_jsToLower_eq_self {l : List Char}
    (h : ∀ c ∈ l, isSlugOutChar c = true) : l.map jsToLower = l := by
  induction l with
  | nil => rfl
  | cons a t ih =>
    rw [List.map_cons, jsToLower_eq_self (h a (List.mem_cons_self a t)),
      ih (fun c hc => h c (List.mem_cons_of_mem _ hc))]

theorem trimChars_eq_self {l : List Char}
    (h : ∀ c ∈ l, isSpaceChar c = false) : trimChars l = l := by
  rw [trimChars, dropWhile_eq_self_of_all h,
    dropWhile_eq_self_of_all (fun c hc => h c (List.mem_reverse.mp hc)),
    List.reverse_reverse]

theorem collapseSpaces_eq_self {l : List Char}
    (h : ∀ c ∈ l, isSpaceChar c = false) : collapseSpaces l = l := by
  induction l with
  | nil => rfl
  | cons a rest ih =>
    cases rest with
    | nil =>
      show (if isSpaceChar a then ['-'] else [a]) = [a]
      rw [if_neg (by rw [h a (List.mem_cons_self a [])]; exact Bool.false_ne_true)]
    | cons d t =>
      rw [collapseSpaces,
        if_neg (by
          rw [h a (List.mem_cons_self a (d :: t))]
          exact Bool.false_ne_true),
        ih (fun c hc => h c (List.mem_cons_of_mem _ hc))]

theorem collapseHyphens_eq_self {l : List Char}
    (h : hyphenRunFree l = true) : collapseHyphens l = l := by
  induction l with
  | nil => rfl
  | cons a rest ih =>
    cases rest with
    | nil => rfl
    | cons d t =>
      rw [hyphenRunFree_cons_iff] at h
      rw [collapseHyphens]
      by_cases ha : isHyphen a = true
      · have hd : isHyphen d = false := by
          have hpair := h.2 d rfl
          rw [ha] at hpair
          simpa using hpair
        rw [if_pos ha, if_neg (by rw [hd]; exact Bool.false_ne_true),
          ih h.1, of_decide_eq_true ha]
      · rw [if_neg ha, ih h.1]

theorem filter_word_eq_self {l : List Char}
    (h : ∀ c ∈ l, isSlugOutChar c = true) :
    l.filter (fun c => isWordChar c || isHyphen c) = l := by
  apply List.filter_eq_self.mpr
  intro a ha
  exact slugChar_word_or_hyphen (h a ha)

theorem filter_combining_eq_self {l : List Char}
    (h : ∀ c ∈ l, isSlugOutChar c = true) :
    l.filter (fun c => !isCombiningMark c) = l := by
  apply List.filter_eq_self.mpr
  intro a ha
  have hle := slugChar_toNat_le (h a ha)
  have : isCombiningMark a = false := by
    rw [isCombiningMark]
    apply decide_eq_false
    omega
  rw [this]
  rfl

theorem stripEdgeHyphens_eq_self {l : List Char}
    (h1 : ∀ c, l.head? = some c → isHyphen c = false)
    (h2 : ∀ c, l.getLast? = some c → isHyphen c = false) :
    stripEdgeHyphens l = l := by
  rw [stripEdgeHyphens, dropWhile_eq_self_of_head h1,
    dropWhile_eq_self_of_head
      (fun c hc => h2 c (by rw [← List.head?_reverse]; exact hc)),
    List.reverse_reverse]

theorem nfdChar_eq_self {c : Char} (h : c.toNat ≤ 122) : nfdChar c = [c] := by
  have ne : ∀ x : Char, 122 < x.toNat → c ≠ x := by
    intro x hx he
    rw [he] at h
    omega
  rw [nfdChar, if_neg (ne _ (by decide)), if_neg (ne _ (by decide)),
    if_neg (ne _ (by decide)), if_neg (ne _ (by decide)),
    if_neg (ne _ (by decide)), if_neg (ne _ (by decide)),
    if_neg (ne _ (by decide)), if_neg (ne _ (by decide)),
    if_neg (ne _ (by decide)), if_neg (ne _ (by decide)),
    if_neg (ne _ (by decide)), if_neg (ne _ (by decide)),
    if_neg (ne _ (by decide)), if_neg (ne _ (by decide))]

theorem nfd_eq_self {l : List Char}
    (h : ∀ c ∈ l, isSlugOutChar c = true) : nfd l = l := by
  induction l with
  | nil => rfl
  | cons a t ih =>
    show nfdChar a ++ t.flatMap nfdChar = a :: t
    rw [nfdChar_eq_self (slugChar_toNat_le (h a (List.mem_cons_self a t)))]
    have : t.flatMap nfdChar = t := ih (fun c hc => h c (List.mem_cons_of_mem _ hc))
    rw [this]
    rfl

theorem slugCharsPlain_eq_self {l : List Char}
    (hall : ∀ c ∈ l, isSlugOutChar c = true)
    (hhead : ∀ c, l.head? = some c → isHyphen c = false)
    (hlast : ∀ c, l.getLast? = some c → isHyphen c = false)
    (hrun : hyphenRunFree l = true) :
    slugCharsPlain l = l := by
  rw [slugCharsPlain, map_jsToLower_eq_self hall,
    trimChars_eq_self (fun c hc => slugChar_not_space (hall c hc)),
    collapseSpaces_eq_self (fun c hc => slugChar_not_space (hall c hc)),
    filter_word_eq_self hall, collapseHyphens_eq_self hrun,
    stripEdgeHyphens_eq_self hhead hlast]

theorem slugChars_eq_plain_of_valid {l : List Char}
    (hall : ∀ c ∈ l, isSlugOutChar c = true) :
    slugChars l = slugCharsPlain l := by
  rw [slugChars, nfd_eq_self hall, filter_combining_eq_self hall]

/-- The output of a slug pipeline has no hyphen at either end. -/
def noEdgeHyphen (l : List Char) : Bool :=
  (match l.head? with
   | some c => !isHyphen c
   | none => true) &&
  (match l.getLast? with
   | some c => !isHyphen c
   | none => true)

theorem noEdgeHyphen_intro {l : List Char}
    (h1 : ∀ c, l.head? = some c → isHyphen c = false)
    (h2 : ∀ c, l.getLast? = some c → isHyphen c = false) :
    noEdgeHyphen l = true := by
  rw [noEdgeHyphen]
  apply (Bool.and_eq_true _ _).mpr
  constructor
  · cases hh : l.head? with
    | none => rfl
    | some c =>
      show (!isHyphen c) = true
      rw [h1 c hh]
      rfl
  · cases hh : l.getLast? with
    | none => rfl
    | some c =>
      show (!isHyphen c) = true
      rw [h2 c hh]
      rfl

theorem slugCharsPlain_noEdgeHyphen (l : List Char) :
    noEdgeHyphen (slugCharsPlain l) = true :=
  noEdgeHyphen_intro (fun _ hc => slugCharsPlain_head hc)
    (fun _ hc => slugCharsPlain_getLast hc)

theorem slugCharsPlain_idem (l : List Char) :
    slugCharsPlain (slugCharsPlain l) = slugCharsPlain l :=
  slugCharsPlain_eq_self (fun _ hc => slugCharsPlain_mem hc)
    (fun _ hc => slugCharsPlain_head hc)
    (fun _ hc => slugCharsPlain_getLast hc)
    (slugCharsPlain_hyphenRunFree l)

theorem slugChars_idem (l : List Char) :
    slugChars (slugChars l) = slugChars l := by
  have hvalid : ∀ c ∈ slugChars l, isSlugOutChar c = true :=
    fun _ hc => slugChars_mem hc
  rw [slugChars_eq_plain_of_valid hvalid]
  exact slugCharsPlain_idem _

/-- Claim C5: for every input string, the output of the slug derivation
(both the `server.js` `generateSlug` and the `migrate-slugs.js` variant)
contains only lowercase letters, digits, underscore and hyphen, has no
leading hyphen, no trailing hyphen, and no run of two or more
consecutive hyphens. -/
theorem c5_deriveSlug_output_charset (s : String) :
    ((generateSlug s).data.all isSlugOutChar = true ∧
      noEdgeHyphen (generateSlug s).data = true ∧
      hyphenRunFree (generateSlug s).data = true) ∧
    ((generateSlugMigrate s).data.all isSlugOutChar = true ∧
      noEdgeHyphen (generateSlugMigrate s).data = true ∧
      hyphenRunFree (generateSlugMigrate s).data = true) := by
  refine ⟨⟨?_, ?_, ?_⟩, ⟨?_, ?_, ?_⟩⟩
  · show (slugChars s.data).all isSlugOutChar = true
    exact List.all_eq_true.mpr (fun _ hc => slugChars_mem hc)
  · show noEdgeHyphen (slugChars s.data) = true
    exact noEdgeHyphen_intro (fun _ hc => slugChars_head hc)
      (fun _ hc => slugChars_getLast hc)
  · show hyphenRunFree (slugChars s.data) = true
    exact slugChars_hyphenRunFree s.data
  · show (slugCharsPlain s.data).all isSlugOutChar = true
    exact List.all_eq_true.mpr (fun _ hc => slugCharsPlain_mem hc)
  · show noEdgeHyphen (slugCharsPlain s.data) = true
    exact slugCharsPlain_noEdgeHyphen s.data
  · show hyphenRunFree (slugCharsPlain s.data) = true
    exact slugCharsPlain_hyphenRunFree s.data

/-- Claim C6: `generateSlug` applied to the exact string
`"Café con Leche!!"` returns exactly `"cafe-con-leche"`: the accent is
decomposed and stripped, letters are lowercased, the whitespace runs
become single hyphens and the exclamation marks are removed. -/
theorem c6_cafe_con_leche :
    generateSlug "Café con Leche!!" = "cafe-con-leche" := by
  decide

/-- Claim C10: the slug derivation is idempotent — applying
`generateSlug` (either variant) to its own output returns that output
unchanged. -/
theorem c10_deriveSlug_idempotent :
    (∀ s : String, generateSlug (generateSlug s) = generateSlug s) ∧
    (∀ s : String, generateSlugMigrate (generateSlugMigrate s) = generateSlugMigrate s) :=
  ⟨fun s => congrArg String.mk (slugChars_idem s.data),
    fun s => congrArg String.mk (slugCharsPlain_idem s.data)⟩

/-! ## The news store and slug uniqueness resolution

A news row carries the columns the handlers read and write.  Nullable
columns are `Option`s.  The store visible to `ensureUniqueSlug` is the
list of `news` rows.
-/

structure NewsRow where
  id : Nat
  title : Option String
  subtitle : Option String
  summary : Option String
  author_id : Option Nat
  main_category_id : Option Nat
  status : Option String
  published_at : Option String
  is_featured : Option Nat
  canonical_slug : Option String
deriving DecidableEq

/-- The collision query of `ensureUniqueSlug`: is there a news row whose
`canonical_slug` equals the candidate, excluding `excludeId` when that
argument is truthy (JavaScript `if (excludeId)`: `null`, `undefined` and
`0` are falsy, so an exclude id of `0` applies no exclusion)? -/
def slugTaken (store : List NewsRow) (slug : String) (excl : Option Nat) : Bool :=
  store.any fun r =>
    decide (r.canonical_slug = some slug) &&
      (match excl with
       | some e => if e = 0 then true else decide (r.id ≠ e)
       | none => true)

/-- The candidate sequence tried by every `ensureUniqueSlug` variant:
the base slug itself, then `base-1`, `base-2`, `base-3`, … -/
def candidateSlug (base : String) (n : Nat) : String :=
  if n = 0 then base else base ++ "-" ++ toString n

/-- The message of the error thrown by the bounded `ensureUniqueSlug`
after `maxAttempts` colliding candidates. -/
def slugExhaustedMsg : String :=
  "No se pudo generar un slug único tras varios intentos"

/-- Loop body of the bounded `ensureUniqueSlug` (`server.js` lines
88-113): `fuel` is the number of loop iterations remaining
(`maxAttempts - counter`), `counter` the JavaScript loop counter, `slug`
the current candidate.  When the fuel runs out the JavaScript code has
left its `for` loop and throws. -/
def ensureUniqueSlugGo (store : List NewsRow) (base : String) (excl : Option Nat) :
    Nat → Nat → String → Except String String
  | 0, _, _ => .error slugExhaustedMsg
  | fuel + 1, counter, slug =>
    if slugTaken store slug excl then
      ensureUniqueSlugGo store base excl fuel (counter + 1)
        (base ++ "-" ++ toString (counter + 1))
    else
      .ok slug

/-- `ensureUniqueSlug` of `server.js` lines 88-113: bounded collision
resolution starting from the base slug, with the JavaScript default
`maxAttempts = 100` passed explicitly. -/
def ensureUniqueSlug (store : List NewsRow) (baseSlug : String)
    (excludeId : Option Nat) (maxAttempts : Nat) : Except String String :=
  ensureUniqueSlugGo store baseSlug excludeId maxAttempts 0 baseSlug

/-- Step-indexed simulation of the `while (true)` variant of
`ensureUniqueSlug` (`server.js` lines 1192-1221, and `migrate-slugs.js`
lines 23-39, which has no exclude id): `fuel` is the number of loop
iterations simulated; `none` means the loop is still running after that
many iterations — the code has no exhaustion bound and no error path, so
the only way it stops is by returning a free candidate. -/
def ensureUniqueSlugUnboundedGo (store : List NewsRow) (base : String)
    (excl : Option Nat) : Nat → Nat → String → Option String
  | 0, _, _ => none
  | fuel + 1, counter, slug =>
    if slugTaken store slug excl then
      ensureUniqueSlugUnboundedGo store base excl fuel (counter + 1)
        (base ++ "-" ++ toString (counter + 1))
    else
      some slug

theorem candidateSlug_zero (base : String) : candidateSlug base 0 = base := rfl

theorem candidateSlug_succ (base : String) (n : Nat) :
    candidateSlug base (n + 1) = base ++ "-" ++ toString (n + 1) := by
  rw [candidateSlug, if_neg (Nat.succ_ne_zero n)]

theorem ensureUniqueSlugGo_found (store : List NewsRow) (base : String)
    (excl : Option Nat) :
    ∀ fuel counter j, counter ≤ j → j < counter + fuel →
      slugTaken store (candidateSlug base j) excl = false →
      (∀ k, counter ≤ k → k < j → slugTaken store (candidateSlug base k) excl = true) →
      ensureUniqueSlugGo store base excl fuel counter (candidateSlug base counter) =
        .ok (candidateSlug base j) := by
  intro fuel
  induction fuel with
  | zero =>
    intro counter j h1 h2
    omega
  | succ fuel ih =>
    intro counter j h1 h2 hfree htaken
    simp only [ensureUniqueSlugGo]
    by_cases hc : counter = j
    · subst hc
      rw [if_neg (by rw [hfree]; exact Bool.false_ne_true)]
    · have hcj : counter < j := lt_of_le_of_ne h1 hc
      rw [if_pos (htaken counter le_rfl hcj), ← candidateSlug_succ]
      exact ih (counter + 1) j hcj (by omega) hfree
        (fun k hk1 hk2 => htaken k (by omega) hk2)

theorem ensureUniqueSlugGo_exhaust (store : List NewsRow) (base : String)
    (excl : Option Nat) :
    ∀ fuel counter,
      (∀ k, counter ≤ k → k < counter + fuel →
        slugTaken store (candidateSlug base k) excl = true) →
      ensureUniqueSlugGo store base excl fuel counter (candidateSlug base counter) =
        .error slugExhaustedMsg := by
  intro fuel
  induction fuel with
  | zero => intro counter _; rfl
  | succ fuel ih =>
    intro counter htaken
    simp only [ensureUniqueSlugGo]
    rw [if_pos (htaken counter le_rfl (by omega)), ← candidateSlug_succ]
    exact ih (counter + 1) (fun k hk1 hk2 => htaken k (by omega) (by omega))

theorem unboundedGo_running (store : List NewsRow) (base : String)
    (excl : Option Nat) :
    ∀ fuel counter,
      (∀ k, counter ≤ k → k < counter + fuel →
        slugTaken store (candidateSlug base k) excl = true) →
      ensureUniqueSlugUnboundedGo store base excl fuel counter
        (candidateSlug base counter) = none := by
  intro fuel
  induction fuel with
  | zero => intro counter _; rfl
  | succ fuel ih =>
    intro counter htaken
    simp only [ensureUniqueSlugUnboundedGo]
    rw [if_pos (htaken counter le_rfl (by omega)), ← candidateSlug_succ]
    exact ih (counter + 1) (fun k hk1 hk2 => htaken k (by omega) (by omega))

theorem unboundedGo_found (store : List NewsRow) (base : String)
    (excl : Option Nat) :
    ∀ fuel counter j, counter ≤ j → j < counter + fuel →
      slugTaken store (candidateSlug base j) excl = false →
      (∀ k, counter ≤ k → k < j → slugTaken store (candidateSlug base k) excl = true) →
      ensureUniqueSlugUnboundedGo store base excl fuel counter
        (candidateSlug base counter) = some (candidateSlug base j) := by
  intro fuel
  induction fuel with
  | zero =>
    intro counter j h1 h2
    omega
  | succ fuel ih =>
    intro counter j h1 h2 hfree htaken
    simp only [ensureUniqueSlugUnboundedGo]
    by_cases hc : counter = j
    · subst hc
      rw [if_neg (by rw [hfree]; exact Bool.false_ne_true)]
    · have hcj : counter < j := lt_of_le_of_ne h1 hc
      rw [if_pos (htaken counter le_rfl hcj), ← candidateSlug_succ]
      exact ih (counter + 1) j hcj (by omega) hfree
        (fun k hk1 hk2 => htaken k (by omega) hk2)

/-- A news row carrying only an id and a canonical slug, as the slug
collision query sees it. -/
def newsRowSlug (id : Nat) (slug : Option String) : NewsRow :=
  ⟨id, none, none, none, none, none, none, none, none, slug⟩

/-- Claim C4: the bounded `ensureUniqueSlug` returns the base slug
itself when it is free of collisions, and otherwise the first free
candidate of the sequence `base-1`, `base-2`, `base-3`, … -/
theorem c4_ensureUnique_first_free (store : List NewsRow) (base : String)
    (excl : Option Nat) (j : Nat) (hj : j < 100)
    (hfree : slugTaken store (candidateSlug base j) excl = false)
    (htaken : ∀ k, k < j → slugTaken store (candidateSlug base k) excl = true) :
    ensureUniqueSlug store base excl 100 = .ok (candidateSlug base j) := by
  show ensureUniqueSlugGo store base excl 100 0 (candidateSlug base 0) = _
  exact ensureUniqueSlugGo_found store base excl 100 0 j (Nat.zero_le j)
    (by omega) hfree (fun k _ hk2 => htaken k hk2)

/-- Claim C4 witness: against a store already containing the slug
`"news"`, `ensureUniqueSlug "news"` returns `"news-1"`, and once
`"news-1"` is persisted as well a second call returns `"news-2"`. -/
theorem c4_ensureUnique_first_free_witness :
    ensureUniqueSlug [newsRowSlug 1 (some "news")] "news" none 100 = .ok "news-1" ∧
    ensureUniqueSlug [newsRowSlug 1 (some "news"), newsRowSlug 2 (some "news-1")]
      "news" none 100 = .ok "news-2" := by
  constructor
  · exact c4_ensureUnique_first_free [newsRowSlug 1 (some "news")] "news" none 1
      (by decide) (by decide) (by decide)
  · exact c4_ensureUnique_first_free
      [newsRowSlug 1 (some "news"), newsRowSlug 2 (some "news-1")] "news" none 2
      (by decide) (by decide) (by decide)

/-- Claim C3 (amended): the bounded `ensureUniqueSlug` of `server.js`
lines 88-113 fails with the slug-exhaustion error exactly when all of
the first 100 candidates (`base`, `base-1`, …, `base-99`) collide; in
particular it never attempts more than 100 candidates.  (The
`while(true)` variants carry no such bound — see the counterexample.) -/
theorem c3_bounded_attempts (store : List NewsRow) (base : String)
    (excl : Option Nat) :
    ensureUniqueSlug store base excl 100 = .error slugExhaustedMsg ↔
      ∀ k, k < 100 → slugTaken store (candidateSlug base k) excl = true := by
  constructor
  · intro h
    by_contra hnot
    push_neg at hnot
    obtain ⟨k, hk, hkf⟩ := hnot
    have hkf2 : slugTaken store (candidateSlug base k) excl = false := by
      cases hcase : slugTaken store (candidateSlug base k) excl with
      | false => rfl
      | true => exact absurd hcase hkf
    have hex : ∃ j, slugTaken store (candidateSlug base j) excl = false := ⟨k, hkf2⟩
    have hjf := Nat.find_spec hex
    have hjle : Nat.find hex ≤ k := Nat.find_min' hex hkf2
    have hj100 : Nat.find hex < 100 := lt_of_le_of_lt hjle hk
    have hmin : ∀ m, m < Nat.find hex →
        slugTaken store (candidateSlug base m) excl = true := by
      intro m hm
      have hnf := Nat.find_min hex hm
      cases hcase : slugTaken store (candidateSlug base m) excl with
      | false => exact absurd hcase hnf
      | true => rfl
    have hok : ensureUniqueSlug store base excl 100 =
        .ok (candidateSlug base (Nat.find hex)) := by
      show ensureUniqueSlugGo store base excl 100 0 (candidateSlug base 0) = _
      exact ensureUniqueSlugGo_found store base excl 100 0 (Nat.find hex)
        (Nat.zero_le _) (by omega) hjf (fun m _ hm2 => hmin m hm2)
    rw [h] at hok
    exact Except.noConfusion hok
  · intro h
    show ensureUniqueSlugGo store base excl 100 0 (candidateSlug base 0) = _
    exact ensureUniqueSlugGo_exhaust store base excl 100 0
      (fun k _ hk2 => h k (by omega))

/-- A pathological store holding the 101 colliding slugs `news`,
`news-1`, …, `news-100`. -/
def collidingStore : List NewsRow :=
  (List.range 101).map (fun k => newsRowSlug (k + 1) (some (candidateSlug "news" k)))

theorem collidingStore_taken {k : Nat} (hk : k < 101) :
    slugTaken collidingStore (candidateSlug "news" k) none = true := by
  rw [slugTaken, List.any_eq_true]
  refine ⟨newsRowSlug (k + 1) (some (candidateSlug "news" k)), ?_, ?_⟩
  · rw [collidingStore, List.mem_map]
    exact ⟨k, List.mem_range.mpr hk, rfl⟩
  · simp [newsRowSlug]

/-- Claim C3 counterexample: against `collidingStore` the `while (true)`
variant of `ensureUniqueSlug` is still running after 101 iterations —
it has already attempted more than the claimed bound of 100 candidates
without raising any `SlugExhaustedError` — and with one more iteration
it returns `"news-101"` normally, so it never fails no matter how many
collisions exist. -/
theorem c3_counterexample_unbounded :
    ensureUniqueSlugUnboundedGo collidingStore "news" none 101 0 "news" = none ∧
    ensureUniqueSlugUnboundedGo collidingStore "news" none 102 0 "news" =
      some "news-101" := by
  constructor
  · exact unboundedGo_running collidingStore "news" none 101 0
      (fun k _ hk2 => collidingStore_taken (by omega))
  · exact unboundedGo_found collidingStore "news" none 102 0 101
      (Nat.zero_le _) (by omega) (by decide)
      (fun k _ hk2 => collidingStore_taken (by omega))

/-- Claim C3 witness: the bounded variant does error out on the
pathological store with 101 colliding slugs, after its 100 attempts. -/
theorem c3_bounded_attempts_witness :
    ensureUniqueSlug collidingStore "news" none 100 = .error slugExhaustedMsg :=
  (c3_bounded_attempts collidingStore "news" none).mpr
    (fun k hk => collidingStore_taken (by omega))

/-! ## The database and request/response shapes of the aggregate handlers -/

structure TagLink where
  news_id : Nat
  tag_id : Nat
deriving DecidableEq

structure BlockRow where
  news_id : Nat
  type : Option String
  content : Option String
  media_url : Option String
  alt_text : Option String
  position : Nat
deriving DecidableEq

structure ImageRow where
  news_id : Nat
  url : Option String
  caption : Option String
  alt_text : Option String
  position : Nat
deriving DecidableEq

structure RelatedLink where
  news_id : Nat
  related_news_id : Nat
deriving DecidableEq

structure CategoryRow where
  id : Nat
  parent_id : Option Nat
deriving DecidableEq

/-- The tables the news-aggregate and category handlers touch. -/
structure DB where
  news : List NewsRow
  newsTags : List TagLink
  newsBlocks : List BlockRow
  newsImages : List ImageRow
  newsRelated : List RelatedLink
  categories : List CategoryRow
deriving DecidableEq

/-- An HTTP response, reduced to the status code and the error message
of the JSON body (`none` for success responses). -/
structure HttpResp where
  status : Nat
  errMsg : Option String
deriving DecidableEq

/-- One entry of a request's `blocks` array. -/
structure BlockInput where
  type : Option String
  content : Option String
  media_url : Option String
  alt_text : Option String
  position : Option Nat
deriving DecidableEq

/-- One entry of a request's `images` array (used by the mysql-variant
handlers only). -/
structure ImageInput where
  url : Option String
  caption : Option String
  alt_text : Option String
  position : Option Nat
deriving DecidableEq

/-- JavaScript string truthiness of a nullable string: `null`,
`undefined` and `""` are falsy. -/
def truthyStr : Option String → Bool
  | some s => decide (s ≠ "")
  | none => false

/-- JavaScript `x || null` on a nullable string: the empty string is
coerced to null. -/
def jsOrNullStr : Option String → Option String
  | some s => if s = "" then none else some s
  | none => none

/-- The id the storage layer assigns to a freshly inserted news row. -/
def nextNewsId (db : DB) : Nat :=
  db.news.foldr (fun r m => max r.id m) 0 + 1

/-- Block rows as built by the supabase handlers (`server.js` lines
442-453 and 501-515): `blocks.map((block, i) => …, position: i)` — the
stored position is always the 0-based index in the request list. -/
def blockRowsIndexed (nid : Nat) (bs : List BlockInput) : List BlockRow :=
  bs.enum.map (fun p => ⟨nid, p.2.type, p.2.content, p.2.media_url, p.2.alt_text, p.1⟩)

/-- Block rows as built by the mysql-variant handlers
(`migrate-slugs.js` lines 112-127 and 298-314): `content`, `media_url`
and `alt_text` go through `|| null`, and the stored position is
`block.position || 0` — the explicit position if any, and `0`
otherwise. -/
def blockRowsExplicit (nid : Nat) (bs : List BlockInput) : List BlockRow :=
  bs.map (fun blk => ⟨nid, blk.type, jsOrNullStr blk.content,
    jsOrNullStr blk.media_url, jsOrNullStr blk.alt_text, blk.position.getD 0⟩)

/-- Image rows as built by the mysql-variant handlers: position policy
`img.position || 0`. -/
def imageRowsExplicit (nid : Nat) (is : List ImageInput) : List ImageRow :=
  is.map (fun im => ⟨nid, im.url, jsOrNullStr im.caption,
    jsOrNullStr im.alt_text, im.position.getD 0⟩)

/-! ## POST /api/news — the supabase handler (`server.js` lines 402-460) -/

/-- The request body of `POST /api/news`, after the JavaScript
destructuring (each scalar is `none` when absent from the JSON body;
the `status = 'draft'`, `is_featured = 0`, `tags = []`, `blocks = []`
destructuring defaults are applied inside the handler). -/
structure PostNewsBody where
  title : Option String
  subtitle : Option String
  summary : Option String
  author_id : Option Nat
  main_category_id : Option Nat
  status : Option String
  published_at : Option String
  is_featured : Option Nat
  canonical_slug : Option String
  tags : Option (List Nat)
  blocks : Option (List BlockInput)
deriving DecidableEq

/-- The slug resolution at the top of the POST handler:
`finalSlug = canonical_slug ? generateSlug(canonical_slug) : null`, then
`if (finalSlug) finalSlug = await ensureUniqueSlug(finalSlug); else if
(title) finalSlug = await ensureUniqueSlug(generateSlug(title))`. -/
def postResolveSlug (db : DB) (b : PostNewsBody) : Except String (Option String) :=
  let finalSlug0 : Option String :=
    if truthyStr b.canonical_slug then some (generateSlug (b.canonical_slug.getD ""))
    else none
  if truthyStr finalSlug0 then
    (ensureUniqueSlug db.news (finalSlug0.getD "") none 100).map some
  else if truthyStr b.title then
    (ensureUniqueSlug db.news (generateSlug (b.title.getD "")) none 100).map some
  else
    .ok finalSlug0

/-- The steps of the POST handler at which a storage insert can fail.
The handler runs them in sequence with no transaction: the news insert,
then the `news_tags` insert (only when `tags` is non-empty), then the
`news_blocks` insert (only when `blocks` is non-empty). -/
inductive PostStep where
  | newsInsert
  | tagsInsert
  | blocksInsert
deriving DecidableEq

/-- The `POST /api/news` handler.  `failAt` injects a storage failure at
the given step (the supabase call returns an error there); the handler
has no transaction, so the `catch` block merely reports 500 and every
mutation already performed stays in the database. -/
def postNews (db : DB) (b : PostNewsBody) (failAt : Option PostStep) : DB × HttpResp :=
  match postResolveSlug db b with
  | .error e => (db, ⟨500, some e⟩)
  | .ok finalSlug =>
    if failAt = some .newsInsert then
      (db, ⟨500, some "news insert failed"⟩)
    else
      let newsId := nextNewsId db
      let row : NewsRow :=
        ⟨newsId, b.title, b.subtitle, b.summary, b.author_id, b.main_category_id,
          some (b.status.getD "draft"), b.published_at,
          some (b.is_featured.getD 0), finalSlug⟩
      let db1 : DB := { db with news := db.news ++ [row] }
      let tags := b.tags.getD []
      if tags ≠ [] ∧ failAt = some .tagsInsert then
        (db1, ⟨500, some "news_tags insert failed"⟩)
      else
        let db2 : DB :=
          if tags = [] then db1
          else { db1 with newsTags := db1.newsTags ++ tags.map (fun t => ⟨newsId, t⟩) }
        let blocks := b.blocks.getD []
        if blocks ≠ [] ∧ failAt = some .blocksInsert then
          (db2, ⟨500, some "news_blocks insert failed"⟩)
        else
          let db3 : DB :=
            if blocks = [] then db2
            else { db2 with newsBlocks := db2.newsBlocks ++ blockRowsIndexed newsId blocks }
          (db3, ⟨201, none⟩)

/-! ## PUT /api/news/:id — the supabase handler (`server.js` lines 463-522) -/

/-- The request body of `PUT /api/news/:id`.  The handler distinguishes
absent fields (`!== undefined`) from fields supplied as JSON `null`, so
each scalar is a two-level option: the outer layer is presence in the
body, the inner layer is nullability of the value. -/
structure PutNewsBody where
  title : Option (Option String)
  subtitle : Option (Option String)
  summary : Option (Option String)
  author_id : Option (Option Nat)
  main_category_id : Option (Option Nat)
  status : Option (Option String)
  published_at : Option (Option String)
  is_featured : Option (Option Nat)
  canonical_slug : Option (Option String)
  tags : Option (List Nat)
  blocks : Option (List BlockInput)
deriving DecidableEq

/-- The `canonical_slug` entry the PUT handler puts into `updateData`:
absent body field → no entry; otherwise
`finalSlug = canonical_slug ? generateSlug(canonical_slug) : null`, and
a truthy derived slug is resolved through `ensureUniqueSlug` excluding
the updated id. -/
def putResolveSlugField (db : DB) (id : Nat) (b : PutNewsBody) :
    Except String (Option (Option String)) :=
  match b.canonical_slug with
  | none => .ok none
  | some v =>
    let f0 : Option String :=
      if truthyStr v then some (generateSlug (v.getD "")) else none
    if truthyStr f0 then
      (ensureUniqueSlug db.news (f0.getD "") (some id) 100).map (fun r => some (some r))
    else
      .ok (some f0)

/-- Is any news column present in `updateData`
(`Object.keys(updateData).length > 0`)? -/
def putHasUpdate (b : PutNewsBody) : Bool :=
  b.title.isSome || b.subtitle.isSome || b.summary.isSome || b.author_id.isSome ||
  b.main_category_id.isSome || b.status.isSome || b.published_at.isSome ||
  b.is_featured.isSome || b.canonical_slug.isSome

/-- Applying `updateData` to one news row: every column present in the
body is overwritten with the supplied value, every absent column keeps
its stored value. -/
def applyPutFields (r : NewsRow) (b : PutNewsBody)
    (slugField : Option (Option String)) : NewsRow :=
  ⟨r.id, b.title.getD r.title, b.subtitle.getD r.subtitle, b.summary.getD r.summary,
    b.author_id.getD r.author_id, b.main_category_id.getD r.main_category_id,
    b.status.getD r.status, b.published_at.getD r.published_at,
    b.is_featured.getD r.is_featured, slugField.getD r.canonical_slug⟩

/-- The `PUT /api/news/:id` handler on its non-failing storage path:
partial update of the news row, then — only for the collections present
in the body — delete-all-then-reinsert of `news_tags` and `news_blocks`
(`if (tags !== undefined)`, `if (blocks !== undefined)`); inserting an
empty collection is skipped, which leaves just the delete.  The route
parameter `id` is modelled as the numeric id the storage layer compares
against. -/
def putNews (db : DB) (id : Nat) (b : PutNewsBody) : DB × HttpResp :=
  match putResolveSlugField db id b with
  | .error e => (db, ⟨500, some e⟩)
  | .ok slugField =>
    let db1 : DB :=
      if putHasUpdate b then
        { db with news := db.news.map (fun r =>
            if r.id = id then applyPutFields r b slugField else r) }
      else db
    let db2 : DB :=
      match b.tags with
      | none => db1
      | some ts =>
        { db1 with newsTags :=
            db1.newsTags.filter (fun l => decide (l.news_id ≠ id)) ++
              ts.map (fun t => ⟨id, t⟩) }
    let db3 : DB :=
      match b.blocks with
      | none => db2
      | some bs =>
        { db2 with newsBlocks :=
            db2.newsBlocks.filter (fun l => decide (l.news_id ≠ id)) ++
              blockRowsIndexed id bs }
    (db3, ⟨200, none⟩)

/-! ## The mysql-variant aggregate handlers (`migrate-slugs.js` second
document: `createNews` lines 84-171, `updateNews` lines 256-361)

These run inside a `beginTransaction`/`commit`/`rollback` scope; the
models below describe the committed result of a non-failing transaction
(a failing one rolls back to the incoming database with a 500).
-/

/-- The request body of the mysql `POST /api/news` (`createNews`), after
the destructuring defaults `status = 'draft'`, `published_at = null`,
`blocks/images/tags/related_ids = []` have been applied and with the
scalar columns present (an `undefined` bind parameter would abort the
transaction before any commit). -/
structure CreateNewsMBody where
  title : Option String
  subtitle : Option String
  summary : Option String
  author_id : Option Nat
  main_category_id : Option Nat
  status : Option String
  published_at : Option String
  blocks : List BlockInput
  images : List ImageInput
  tags : List Nat
  related_ids : List Nat
deriving DecidableEq

/-- `INSERT IGNORE INTO news_tags`: a duplicate `(news_id, tag_id)` pair
is silently skipped. -/
def insertIgnoreTags (links : List TagLink) (nid : Nat) (ts : List Nat) : List TagLink :=
  ts.foldl (fun acc t =>
    if acc.any (fun l => decide (l.news_id = nid ∧ l.tag_id = t)) then acc
    else acc ++ [⟨nid, t⟩]) links

/-- `INSERT IGNORE INTO news_related`: duplicates silently skipped. -/
def insertIgnoreRelated (links : List RelatedLink) (nid : Nat) (rs : List Nat) :
    List RelatedLink :=
  rs.foldl (fun acc t =>
    if acc.any (fun l => decide (l.news_id = nid ∧ l.related_news_id = t)) then acc
    else acc ++ [⟨nid, t⟩]) links

/-- The mysql `createNews`: insert the news row, then every block (with
the `block.position || 0` policy), every image, and the tag and related
links with `INSERT IGNORE`, all in one committed transaction.  The
`news` insert names neither `is_featured` nor `canonical_slug`, so those
columns keep their storage defaults. -/
def createNewsM (db : DB) (b : CreateNewsMBody) : DB × HttpResp :=
  let newsId := nextNewsId db
  let row : NewsRow :=
    ⟨newsId, b.title, b.subtitle, b.summary, b.author_id, b.main_category_id,
      b.status, b.published_at, none, none⟩
  let db1 : DB := { db with news := db.news ++ [row] }
  let db2 : DB :=
    { db1 with newsBlocks := db1.newsBlocks ++ blockRowsExplicit newsId b.blocks }
  let db3 : DB :=
    { db2 with newsImages := db2.newsImages ++ imageRowsExplicit newsId b.images }
  let db4 : DB := { db3 with newsTags := insertIgnoreTags db3.newsTags newsId b.tags }
  let db5 : DB :=
    { db4 with newsRelated := insertIgnoreRelated db4.newsRelated newsId b.related_ids }
  (db5, ⟨201, none⟩)

/-- The request body of the mysql `PUT /api/news/:id` (`updateNews`).
The seven scalar columns carry no destructuring default — an absent one
is `undefined` and is later passed as a bind parameter; the four
collections default to the empty list when absent. -/
structure UpdateNewsMBody where
  title : Option (Option String)
  subtitle : Option (Option String)
  summary : Option (Option String)
  author_id : Option (Option Nat)
  main_category_id : Option (Option Nat)
  status : Option (Option String)
  published_at : Option (Option String)
  blocks : Option (List BlockInput)
  images : Option (List ImageInput)
  tags : Option (List Nat)
  related_ids : Option (List Nat)
deriving DecidableEq

/-- The mysql `updateNews` ("sync total"): the `UPDATE news SET` always
sets all seven scalar columns, so if any of them is absent from the body
the mysql2 driver rejects the `undefined` bind parameter and the
transaction rolls back with no change at all.  Otherwise all four child
collections are deleted and re-inserted from the body lists — with the
absent ones defaulted to the empty list, which simply clears the
collection. -/
def updateNewsM (db : DB) (id : Nat) (b : UpdateNewsMBody) : DB × HttpResp :=
  if b.title.isNone || b.subtitle.isNone || b.summary.isNone ||
      b.author_id.isNone || b.main_category_id.isNone || b.status.isNone ||
      b.published_at.isNone then
    (db, ⟨500, some "Bind parameters must not contain undefined"⟩)
  else
    let db1 : DB :=
      { db with news := db.news.map (fun r =>
          if r.id = id then
            ⟨r.id, b.title.getD none, b.subtitle.getD none, b.summary.getD none,
              b.author_id.getD none, b.main_category_id.getD none, b.status.getD none,
              b.published_at.getD none, r.is_featured, r.canonical_slug⟩
          else r) }
    let db2 : DB :=
      { db1 with newsBlocks :=
          db1.newsBlocks.filter (fun l => decide (l.news_id ≠ id)) ++
            blockRowsExplicit id (b.blocks.getD []) }
    let db3 : DB :=
      { db2 with newsImages :=
          db2.newsImages.filter (fun l => decide (l.news_id ≠ id)) ++
            imageRowsExplicit id (b.images.getD []) }
    let db4 : DB :=
      { db3 with newsTags :=
          db3.newsTags.filter (fun l => decide (l.news_id ≠ id)) ++
            (b.tags.getD []).map (fun t => ⟨id, t⟩) }
    let db5 : DB :=
      { db4 with newsRelated :=
          db4.newsRelated.filter (fun l => decide (l.news_id ≠ id)) ++
            (b.related_ids.getD []).map (fun t => ⟨id, t⟩) }
    (db5, ⟨200, none⟩)

/-! ## DELETE /api/categories/:id (`server.js` lines 731-751) -/

/-- The category deletion handler: 404 when the id does not exist, 400
(and no mutation) when the category has subcategories, 400 (and no
mutation) when a news row references it as `main_category_id`, and only
otherwise the row is deleted. -/
def deleteCategory (db : DB) (id : Nat) : DB × HttpResp :=
  if ¬ db.categories.any (fun c => decide (c.id = id)) then
    (db, ⟨404, some "Categoría no encontrada"⟩)
  else if db.categories.any (fun c => decide (c.parent_id = some id)) then
    (db, ⟨400, some "No se puede eliminar: la categoría tiene subcategorías"⟩)
  else if db.news.any (fun r => decide (r.main_category_id = some id)) then
    (db, ⟨400, some "No se puede eliminar: la categoría está asociada a noticias"⟩)
  else
    ({ db with categories := db.categories.filter (fun c => decide (c.id ≠ id)) },
      ⟨200, none⟩)

/-! ## Claims about the aggregate handlers -/

/-- The empty database. -/
def emptyDB : DB := ⟨[], [], [], [], [], []⟩

/-- A `POST /api/news` body with a title and one tag link. -/
def c1Body : PostNewsBody :=
  ⟨some "a", none, none, none, none, none, none, none, none, some [1], none⟩

/-- Claim C1 evidence: running `POST /api/news` against the empty
database with body `{title: "a", tags: [1]}`, where the news insert
succeeds and the `news_tags` insert then fails, reports a 500 error —
yet the freshly inserted News row stays in the database.  The handler
has no transaction, so nothing is rolled back and partial state
persists, contradicting the all-or-nothing claim. -/
theorem c1_post_partial_state_persists :
    postNews emptyDB c1Body (some .tagsInsert) =
      ({ emptyDB with news := [⟨1, some "a", none, none, none, none, some "draft",
          none, some 0, some "a"⟩] },
        ⟨500, some "news_tags insert failed"⟩) := by
  decide

/-- Claim C9: deleting a category that has a child category or a news
row referencing it as main category is rejected with the handler's
referential-integrity error (HTTP 400) and performs no mutation at
all. -/
theorem c9_delete_category_conflict (db : DB) (id : Nat)
    (hex : db.categories.any (fun c => decide (c.id = id)) = true)
    (href : db.categories.any (fun c => decide (c.parent_id = some id)) = true ∨
      db.news.any (fun r => decide (r.main_category_id = some id)) = true) :
    (deleteCategory db id).1 = db ∧ (deleteCategory db id).2.status = 400 := by
  rw [deleteCategory, if_neg (not_not_intro hex)]
  rcases href with h1 | h1
  · rw [if_pos h1]
    exact ⟨rfl, rfl⟩
  · by_cases h2 : db.categories.any (fun c => decide (c.parent_id = some id)) = true
    · rw [if_pos h2]
      exact ⟨rfl, rfl⟩
    · rw [if_neg h2, if_pos h1]
      exact ⟨rfl, rfl⟩

/-- A database with a root category and one subcategory of it. -/
def dbC9 : DB := { emptyDB with categories := [⟨1, none⟩, ⟨2, some 1⟩] }

/-- Claim C9 witness: deleting the parent category, which has a
subcategory, changes nothing and reports 400. -/
theorem c9_delete_category_conflict_witness :
    (deleteCategory dbC9 1).1 = dbC9 ∧ (deleteCategory dbC9 1).2.status = 400 :=
  c9_delete_category_conflict dbC9 1 (by decide) (Or.inl (by decide))

/-- Claim C2 (amended): on every successful `PUT /api/news/:id`, the
supabase handler replaces exactly the child collections present in the
body — a supplied `tags`/`blocks` list (including the empty list, which
just clears) deletes the stored rows of that news id and inserts exactly
the supplied entries, an absent one leaves the collection untouched —
and images and related links are never touched by this handler. -/
theorem c2_put_collection_replacement (db : DB) (id : Nat) (b : PutNewsBody)
    (h : (putNews db id b).2.status = 200) :
    (putNews db id b).1.newsTags =
      (match b.tags with
       | none => db.newsTags
       | some ts => db.newsTags.filter (fun l => decide (l.news_id ≠ id)) ++
           ts.map (fun t => ⟨id, t⟩)) ∧
    (putNews db id b).1.newsBlocks =
      (match b.blocks with
       | none => db.newsBlocks
       | some bs => db.newsBlocks.filter (fun l => decide (l.news_id ≠ id)) ++
           blockRowsIndexed id bs) ∧
    (putNews db id b).1.newsImages = db.newsImages ∧
    (putNews db id b).1.newsRelated = db.newsRelated := by
  cases hres : putResolveSlugField db id b with
  | error e =>
    rw [putNews, hres] at h
    simp at h
  | ok slugField =>
    rw [putNews, hres]
    cases htags : b.tags with
    | none =>
      cases hblocks : b.blocks with
      | none => by_cases hupd : putHasUpdate b <;> simp [hupd]
      | some bs => by_cases hupd : putHasUpdate b <;> simp [hupd]
    | some ts =>
      cases hblocks : b.blocks with
      | none => by_cases hupd : putHasUpdate b <;> simp [hupd]
      | some bs => by_cases hupd : putHasUpdate b <;> simp [hupd]

/-- A database holding one tag link and one block for news id 7. -/
def dbC2 : DB :=
  { emptyDB with
    newsTags := [⟨7, 3⟩],
    newsBlocks := [⟨7, some "text", some "hola", none, none, 0⟩] }

/-- A PUT body supplying `tags: []` (clear) and omitting `blocks`. -/
def bC2 : PutNewsBody :=
  ⟨none, none, none, none, none, none, none, none, none, some [], none⟩

/-- Claim C2 witness: with `tags` supplied as the empty list the tag
links of news 7 are cleared, while the omitted `blocks` stay exactly as
stored. -/
theorem c2_put_collection_replacement_witness :
    (putNews dbC2 7 bC2).1.newsTags = [] ∧
    (putNews dbC2 7 bC2).1.newsBlocks =
      [⟨7, some "text", some "hola", none, none, 0⟩] := by
  have h := c2_put_collection_replacement dbC2 7 bC2 (by decide)
  exact ⟨h.1.trans (by decide), h.2.1.trans (by decide)⟩

/-- A database with one news row (id 1) owning one block, for the mysql
updateNews run. -/
def dbC2M : DB :=
  { emptyDB with
    news := [⟨1, some "t", none, none, none, none, some "draft", none, some 0, none⟩],
    newsBlocks := [⟨1, some "text", some "hola", none, none, 0⟩] }

/-- A mysql updateNews body supplying the seven scalar columns but
omitting every child collection. -/
def bC2M : UpdateNewsMBody :=
  ⟨some (some "t"), some none, some none, some none, some none,
    some (some "draft"), some none, none, none, none, none⟩

/-- Claim C2 counterexample: in the mysql `updateNews` variant
(`migrate-slugs.js` lines 256-361) an omitted `blocks` argument is
destructured to the default empty list, so the call deletes the stored
block of news 1 and leaves the collection empty — rather than leaving it
completely unchanged as the claim states. -/
theorem c2_counterexample_omitted_clears :
    bC2M.blocks = none ∧
    dbC2M.newsBlocks = [⟨1, some "text", some "hola", none, none, 0⟩] ∧
    (updateNewsM dbC2M 1 bC2M).2.status = 200 ∧
    (updateNewsM dbC2M 1 bC2M).1.newsBlocks = [] := by
  decide

/-- Claim C7: the supabase PUT handler applies the news fields as a
partial update — on a successful call, every field present in the body
is set to the supplied value on the matching row, every absent field
keeps its prior stored value (with a present `canonical_slug` going
through slug resolution first), and rows with other ids are untouched. -/
theorem c7_put_partial_update (db : DB) (id : Nat) (b : PutNewsBody) (i : Nat)
    (r r2 : NewsRow)
    (h200 : (putNews db id b).2.status = 200)
    (hold : db.news.get? i = some r)
    (hnew : (putNews db id b).1.news.get? i = some r2) :
    (r.id ≠ id → r2 = r) ∧
    (r.id = id →
      r2.id = r.id ∧
      (b.title = none → r2.title = r.title) ∧
      (∀ v, b.title = some v → r2.title = v) ∧
      (b.subtitle = none → r2.subtitle = r.subtitle) ∧
      (∀ v, b.subtitle = some v → r2.subtitle = v) ∧
      (b.summary = none → r2.summary = r.summary) ∧
      (∀ v, b.summary = some v → r2.summary = v) ∧
      (b.author_id = none → r2.author_id = r.author_id) ∧
      (∀ v, b.author_id = some v → r2.author_id = v) ∧
      (b.main_category_id = none → r2.main_category_id = r.main_category_id) ∧
      (∀ v, b.main_category_id = some v → r2.main_category_id = v) ∧
      (b.status = none → r2.status = r.status) ∧
      (∀ v, b.status = some v → r2.status = v) ∧
      (b.published_at = none → r2.published_at = r.published_at) ∧
      (∀ v, b.published_at = some v → r2.published_at = v) ∧
      (b.is_featured = none → r2.is_featured = r.is_featured) ∧
      (∀ v, b.is_featured = some v → r2.is_featured = v) ∧
      (b.canonical_slug = none → r2.canonical_slug = r.canonical_slug)) := by
  cases hres : putResolveSlugField db id b with
  | error e =>
    rw [putNews, hres] at h200
    simp at h200
  | ok slugField =>
    have hnews : (putNews db id b).1.news =
        (if putHasUpdate b then
          db.news.map (fun x => if x.id = id then applyPutFields x b slugField else x)
        else db.news) := by
      rw [putNews, hres]
      cases b.tags <;> cases b.blocks <;> by_cases hupd : putHasUpdate b <;> simp [hupd]
    by_cases hupd : putHasUpdate b
    · rw [hnews, if_pos hupd, List.get?_map, hold, Option.map_some'] at hnew
      have hfr : (if r.id = id then applyPutFields r b slugField else r) = r2 :=
        Option.some.inj hnew
      constructor
      · intro hne
        rw [if_neg hne] at hfr
        exact hfr.symm
      · intro heq
        rw [if_pos heq] at hfr
        subst hfr
        refine ⟨rfl, ?_, ?_, ?_, ?_, ?_, ?_, ?_, ?_, ?_, ?_, ?_, ?_, ?_, ?_, ?_, ?_, ?_⟩
        all_goals first
          | (intro hv; simp [applyPutFields, hv]; done)
          | (intro v hv; simp [applyPutFields, hv]; done)
          | (intro hcs
             simp only [putResolveSlugField, hcs] at hres
             simp only [Except.ok.injEq] at hres
             subst hres
             simp [applyPutFields])
    · rw [hnews, if_neg hupd, hold] at hnew
      obtain rfl := Option.some.inj hnew
      constructor
      · intro _
        rfl
      · intro _
        refine ⟨rfl, ?_, ?_, ?_, ?_, ?_, ?_, ?_, ?_, ?_, ?_, ?_, ?_, ?_, ?_, ?_, ?_, ?_⟩
        all_goals first
          | (intro hv; rfl)
          | (intro v hv; simp [putHasUpdate, hv] at hupd)

/-- The stored news row for the C7 witness run. -/
def rC7old : NewsRow :=
  ⟨1, some "viejo", some "sub", none, none, none, some "draft", none, some 0,
    some "viejo"⟩

/-- The row expected after updating only the title. -/
def rC7new : NewsRow :=
  ⟨1, some "nuevo", some "sub", none, none, none, some "draft", none, some 0,
    some "viejo"⟩

/-- A database holding just `rC7old`. -/
def dbC7 : DB := { emptyDB with news := [rC7old] }

/-- A PUT body supplying only the title. -/
def bC7 : PutNewsBody :=
  ⟨some (some "nuevo"), none, none, none, none, none, none, none, none, none, none⟩

/-- Claim C7 witness: updating news 1 with only a title leaves the
subtitle (and the slug) at their stored values while the title takes the
supplied one. -/
theorem c7_put_partial_update_witness :
    (putNews dbC7 1 bC7).1.news.get? 0 = some rC7new ∧
    rC7new.title = some "nuevo" ∧
    rC7new.subtitle = rC7old.subtitle ∧
    rC7new.canonical_slug = rC7old.canonical_slug := by
  have h := c7_put_partial_update dbC7 1 bC7 0 rC7old rC7new (by decide)
    (by decide) (by decide)
  have h2 := h.2 (by decide)
  exact ⟨by decide, h2.2.2.1 (some "nuevo") rfl, h2.2.2.2.1 rfl,
    h2.2.2.2.2.2.2.2.2.2.2.2.2.2.2.2.2.2 rfl⟩

theorem blockRowsIndexed_positions (nid : Nat) (bs : List BlockInput) :
    (blockRowsIndexed nid bs).map (fun r => r.position) = List.range bs.length := by
  rw [blockRowsIndexed, List.map_map]
  have hcomp : ((fun r : BlockRow => r.position) ∘
      (fun p : Nat × BlockInput =>
        (⟨nid, p.2.type, p.2.content, p.2.media_url, p.2.alt_text, p.1⟩ : BlockRow))) =
      Prod.fst := rfl
  rw [hcomp, List.enum_map_fst]

theorem blockRowsExplicit_positions (nid : Nat) (bs : List BlockInput) :
    (blockRowsExplicit nid bs).map (fun r => r.position) =
      bs.map (fun blk => blk.position.getD 0) := by
  rw [blockRowsExplicit, List.map_map]
  rfl

/-- Claim C8 (amended): on a successful `POST /api/news`, the supabase
handler stores every inserted block with position equal to its 0-based
index in the request list (so reading back ordered by position yields
caller order `0..n-1`); the mysql `createNews` variant instead stores
`block.position || 0` — the explicit position when given, and `0` (not
the index) when absent. -/
theorem c8_block_position_policy (db : DB) (b : PostNewsBody)
    (dbm : DB) (bm : CreateNewsMBody)
    (h : (postNews db b none).2.status = 201) :
    (postNews db b none).1.newsBlocks.map (fun r => r.position) =
      db.newsBlocks.map (fun r => r.position) ++
        List.range (b.blocks.getD []).length ∧
    (createNewsM dbm bm).1.newsBlocks.map (fun r => r.position) =
      dbm.newsBlocks.map (fun r => r.position) ++
        bm.blocks.map (fun blk => blk.position.getD 0) := by
  constructor
  · cases hres : postResolveSlug db b with
    | error e =>
      rw [postNews, hres] at h
      simp at h
    | ok finalSlug =>
      rw [postNews, hres]
      simp only [reduceCtorEq, if_neg]
      by_cases htags : b.tags.getD [] = []
      · by_cases hblocks : b.blocks.getD [] = []
        · simp [htags, hblocks]
        · simp [htags, hblocks, List.map_append, blockRowsIndexed_positions]
      · by_cases hblocks : b.blocks.getD [] = []
        · simp [htags, hblocks]
        · simp [htags, hblocks, List.map_append, blockRowsIndexed_positions]
  · rw [createNewsM]
    simp [List.map_append, blockRowsExplicit_positions]

/-- A block entry with no explicit position. -/
def blkNoPos1 : BlockInput := ⟨some "text", some "a", none, none, none⟩

/-- A second block entry with no explicit position. -/
def blkNoPos2 : BlockInput := ⟨some "text", some "b", none, none, none⟩

/-- A POST body with a title and two position-less blocks. -/
def bC8post : PostNewsBody :=
  ⟨some "x", none, none, none, none, none, none, none, none, none,
    some [blkNoPos1, blkNoPos2]⟩

/-- A mysql createNews body with the same two position-less blocks. -/
def bC8mysql : CreateNewsMBody :=
  ⟨some "x", none, none, none, none, some "draft", none,
    [blkNoPos1, blkNoPos2], [], [], []⟩

/-- Claim C8 witness: the supabase POST stores the two blocks at
positions 0 and 1, while the mysql createNews stores them both at 0. -/
theorem c8_block_position_policy_witness :
    (postNews emptyDB bC8post none).1.newsBlocks.map (fun r => r.position) = [0, 1] ∧
    (createNewsM emptyDB bC8mysql).1.newsBlocks.map (fun r => r.position) = [0, 0] := by
  have h := c8_block_position_policy emptyDB bC8post emptyDB bC8mysql (by decide)
  exact ⟨h.1.trans (by decide), h.2.trans (by decide)⟩

/-- Claim C8 counterexample: in the mysql `createNews`
(`migrate-slugs.js` lines 112-127, `block.position || 0`), the second
block — index 1 in the caller-supplied list, with no explicit
position — is stored with position 0, not 1: the stored positions are
`[0, 0]`, not the `[0, 1]` the claim requires. -/
theorem c8_counterexample_position_default_zero :
    (createNewsM emptyDB bC8mysql).1.newsBlocks.map (fun r => r.position) = [0, 0] ∧
    ¬((createNewsM emptyDB bC8mysql).1.newsBlocks.map (fun r => r.position) = [0, 1]) := by
  decide
